import Mathlib

/-!
Shallow embedding of the Mok Transport internal sales system (`src/main.py`):
the sales ledger (sqlite table `sales`), the recording endpoint `record_sale`
with its VAT/total/profit derivation, the list/export/invoice projections,
and the dashboard aggregations implemented with pandas `groupby`.

Monetary amounts (Python floats) are modelled as rationals; the sqlite table
is modelled as a list of rows in insertion order with ids assigned by the
AUTOINCREMENT rule (one more than the largest id ever used; this variant of
the app never deletes rows, so that is one more than the current maximum).
-/

namespace MokSales

/-- Scalar value stored in a sqlite cell / returned in a JSON row: the
`sales` table holds INTEGER ids, TEXT fields and REAL monetary fields. -/
inductive Val where
  | i : Int → Val
  | s : String → Val
  | q : ℚ → Val
deriving DecidableEq, Repr

/-- Request body of `POST /record-sale` (pydantic model `Sale` in the source):
five string fields and two float fields. -/
structure Sale where
  party : String
  supplier : String
  order_no : String
  invoice_no : String
  sale_date : String
  supplier_cost : ℚ
  client_charge : ℚ
deriving DecidableEq, Repr

/-- One row of the `sales` table, in the column order of `CREATE TABLE`. -/
structure SaleRow where
  id : Nat
  party : String
  supplier : String
  order_no : String
  invoice_no : String
  sale_date : String
  supplier_cost : ℚ
  client_charge : ℚ
  vat : ℚ
  total_invoice : ℚ
  profit : ℚ
deriving DecidableEq, Repr

/-- The persisted ledger: rows of the `sales` table in insertion order. -/
abbrev Ledger := List SaleRow

/-- Module constant `VAT_RATE = 0.15`. -/
def VAT_RATE : ℚ := 15 / 100

/-- Id the next INSERT receives (sqlite AUTOINCREMENT: one more than the
largest id used so far; no delete endpoint exists in this variant). -/
def nextId (l : Ledger) : Nat := (l.map (·.id)).foldr max 0 + 1

/-- Round to nearest integer, ties to even — the behaviour of Python's
built-in `round`. -/
def roundHalfEven (x : ℚ) : Int :=
  let f := ⌊x⌋
  if x - f < 1 / 2 then f
  else if (1 : ℚ) / 2 < x - f then f + 1
  else if f % 2 = 0 then f else f + 1

/-- Python's `round(x, 2)`: round to 2 decimal places. -/
def round2 (x : ℚ) : ℚ := (roundHalfEven (x * 100) : ℚ) / 100

/-- JSON body returned by `POST /record-sale`. -/
structure SaleResponse where
  vat : ℚ
  total_invoice : ℚ
  profit : ℚ
  message : String
deriving DecidableEq, Repr

/-- `record_sale` (src/main.py lines 100–138): derive vat, total_invoice and
profit from the payload and the `vat_enabled` query flag, INSERT the full row
(unrounded values), and return the derived values rounded to 2 places. -/
def record_sale (sale : Sale) (vat_enabled : Bool) (l : Ledger) :
    SaleResponse × Ledger :=
  let vat : ℚ := if vat_enabled then sale.client_charge * VAT_RATE else 0
  let total_invoice : ℚ := sale.client_charge + vat
  let profit : ℚ := sale.client_charge - sale.supplier_cost
  let row : SaleRow :=
    ⟨nextId l, sale.party, sale.supplier, sale.order_no, sale.invoice_no,
      sale.sale_date, sale.supplier_cost, sale.client_charge,
      vat, total_invoice, profit⟩
  (⟨round2 vat, round2 total_invoice, round2 profit,
      "Sale recorded successfully"⟩, l ++ [row])

/-- Columns of the `sales` table in `CREATE TABLE` order (what `SELECT *`
returns). -/
def tableColumns : List String :=
  ["id", "party", "supplier", "order_no", "invoice_no", "sale_date",
   "supplier_cost", "client_charge", "vat", "total_invoice", "profit"]

/-- Value of a named column of a row (`none` for an unknown column name,
which sqlite would reject; the source only ever selects known columns). -/
def colVal (r : SaleRow) : String → Option Val
  | "id" => some (.i r.id)
  | "party" => some (.s r.party)
  | "supplier" => some (.s r.supplier)
  | "order_no" => some (.s r.order_no)
  | "invoice_no" => some (.s r.invoice_no)
  | "sale_date" => some (.s r.sale_date)
  | "supplier_cost" => some (.q r.supplier_cost)
  | "client_charge" => some (.q r.client_charge)
  | "vat" => some (.q r.vat)
  | "total_invoice" => some (.q r.total_invoice)
  | "profit" => some (.q r.profit)
  | _ => none

/-- Project a row onto a SELECT column list. -/
def selectRow (cols : List String) (r : SaleRow) : List Val :=
  cols.filterMap (colVal r)

/-- Column list of the SELECT in `get_sales` (src/main.py lines 147–151). -/
def getSalesColumns : List String :=
  ["id", "party", "supplier", "order_no", "invoice_no", "sale_date",
   "client_charge", "total_invoice", "profit"]

/-- `GET /sales` (src/main.py lines 142–156): SELECT with no ORDER BY over
the table, so rows come back in stored (insertion / ascending rowid) order. -/
def get_sales (l : Ledger) : List (List Val) :=
  l.map (selectRow getSalesColumns)

/-- Header labels written in row 4 of the exported worksheet
(src/main.py lines 190–194): nine labels. -/
def excelHeaders : List String :=
  ["ID", "Party", "Supplier", "Order", "Invoice", "Date", "Supplier Cost",
   "Total Invoice", "Profit"]

/-- Data rows appended to the worksheet by `export_excel` (src/main.py
lines 163–204): `SELECT * FROM sales`, so every row carries all 11 columns. -/
def export_excel_rows (l : Ledger) : List (List Val) :=
  l.map (selectRow tableColumns)

/-- Display label of each table column, as the source itself labels them
(the worksheet header strings and the PDF invoice captions: "Supplier Cost",
"Client Charge", "VAT", "Total Invoice", "Profit", …). -/
def colLabel : String → String
  | "id" => "ID"
  | "party" => "Party"
  | "supplier" => "Supplier"
  | "order_no" => "Order"
  | "invoice_no" => "Invoice"
  | "sale_date" => "Date"
  | "supplier_cost" => "Supplier Cost"
  | "client_charge" => "Client Charge"
  | "vat" => "VAT"
  | "total_invoice" => "Total Invoice"
  | "profit" => "Profit"
  | _ => ""

/-- Whether the worksheet header at 0-based position `k` is the label of the
table column that the appended data rows place at position `k`. -/
def headerMatchesColumn (k : Nat) : Bool :=
  match excelHeaders.get? k, tableColumns.get? k with
  | some h, some c => h == colLabel c
  | _, _ => false

/-- Document produced by `GET /invoice/{sale_id}` (src/main.py lines
213–247): all stored fields, with vat / total_invoice / profit rounded to 2
places for display. -/
structure InvoiceDoc where
  party : String
  supplier : String
  order_no : String
  invoice_no : String
  sale_date : String
  supplier_cost : ℚ
  client_charge : ℚ
  vat : ℚ
  total_invoice : ℚ
  profit : ℚ
deriving DecidableEq, Repr

/-- `invoice` endpoint: point lookup by id; the error dict
`{"error": "Sale not found"}` when the id is absent. The handler only runs
a SELECT, so the ledger component is returned unchanged. -/
def invoice (sale_id : Nat) (l : Ledger) : Except String InvoiceDoc × Ledger :=
  match l.find? (fun r => r.id == sale_id) with
  | none => (.error "Sale not found", l)
  | some row =>
      (.ok ⟨row.party, row.supplier, row.order_no, row.invoice_no,
        row.sale_date, row.supplier_cost, row.client_charge,
        round2 row.vat, round2 row.total_invoice, round2 row.profit⟩, l)

/-- Lexicographic strict comparison of character lists by code point; a
kernel-computable equivalent of the `<` order on `String`. -/
def charListLt : List Char → List Char → Bool
  | _, [] => false
  | [], _ :: _ => true
  | a :: as, b :: bs =>
      if a < b then true else if b < a then false else charListLt as bs

/-- Boolean version of `String` strict order. -/
def strLtB (a b : String) : Bool := charListLt a.data b.data

/-- Boolean version of `String` order (`a ≤ b` iff not `b < a`). -/
def strLeB (a b : String) : Bool := !(charListLt b.data a.data)

/-- Split a character list on a separator character (the behaviour of
`String.splitOn` with a one-character separator). -/
def splitOnChar (c : Char) : List Char → List (List Char)
  | [] => [[]]
  | a :: as =>
      if a = c then [] :: splitOnChar c as
      else
        match splitOnChar c as with
        | [] => [a] :: []
        | g :: gs => (a :: g) :: gs

/-- Strip leading and trailing whitespace. -/
def trimChars (l : List Char) : List Char :=
  ((l.dropWhile (·.isWhitespace)).reverse.dropWhile (·.isWhitespace)).reverse

/-- Whether a character list is a nonempty run of decimal digits. -/
def isDigits (l : List Char) : Bool := !l.isEmpty && l.all (·.isDigit)

/-- Natural number denoted by a digit list. -/
def digitsToNat (l : List Char) : Nat :=
  l.foldl (fun n c => n * 10 + (c.toNat - 48)) 0

/-- Gregorian leap-year rule. -/
def isLeap (y : Nat) : Bool := (y % 4 == 0 && y % 100 != 0) || y % 400 == 0

/-- Number of days in a month. -/
def daysInMonth (y m : Nat) : Nat :=
  if m = 2 then (if isLeap y then 29 else 28)
  else if m = 4 ∨ m = 6 ∨ m = 9 ∨ m = 11 then 30
  else 31

/-- Calendar-date parse used by the monthly dashboard: models
`pd.to_datetime(-, errors="coerce")` restricted to ISO `YYYY-M[M]-D[D]`
strings, the format the app's date input produces; returns the (year,
month) pair on success and `none` (pandas `NaT`) on failure. -/
def parseDate (s : String) : Option (Nat × Nat) :=
  match splitOnChar '-' s.data with
  | [ys, ms, ds] =>
      if isDigits ys ∧ ys.length = 4 ∧ isDigits ms ∧ ms.length ≤ 2
          ∧ isDigits ds ∧ ds.length ≤ 2 then
        let y := digitsToNat ys
        let m := digitsToNat ms
        let d := digitsToNat ds
        if 1 ≤ m ∧ m ≤ 12 ∧ 1 ≤ d ∧ d ≤ daysInMonth y m then some (y, m)
        else none
      else none
  | _ => none

/-- Zero-pad a number below 100 to two digits. -/
def pad2 (n : Nat) : String := if n < 10 then "0" ++ toString n else toString n

/-- The `strftime("%Y-%m")` month key of a row, `none` when its `sale_date`
does not parse. -/
def monthKey (r : SaleRow) : Option String :=
  (parseDate r.sale_date).map (fun p => toString p.1 ++ "-" ++ pad2 p.2)

/-- Add a value into a keyed accumulator: sum it into the existing entry for
the key, or append a fresh entry. -/
def addGroup {α : Type} [Add α] (k : String) (v : α) :
    List (String × α) → List (String × α)
  | [] => [(k, v)]
  | (k0, v0) :: g =>
      if k0 = k then (k0, v0 + v) :: g else (k0, v0) :: addGroup k v g

/-- One fold step of grouping: add the row's value into its group, or skip
the row when its key is `none`. -/
def groupStep {α : Type} [Add α] (key : SaleRow → Option String)
    (val : SaleRow → α) (g : List (String × α)) (r : SaleRow) :
    List (String × α) :=
  match key r with
  | none => g
  | some k => addGroup k (val r) g

/-- Accumulate `val` over the rows of the ledger grouped by `key`, skipping
rows whose key is `none` (pandas drops them before grouping). -/
def buildGroups {α : Type} [Add α] (key : SaleRow → Option String)
    (val : SaleRow → α) (l : Ledger) : List (String × α) :=
  l.foldl (groupStep key val) []

/-- Order on keyed entries: by key, ascending. -/
def keyLe {α : Type} (a b : String × α) : Prop := strLeB a.1 b.1 = true

instance {α : Type} : DecidableRel (keyLe (α := α)) :=
  fun a b => inferInstanceAs (Decidable (strLeB a.1 b.1 = true))

/-- Sort grouped entries by key ascending (pandas `groupby` sorts its group
keys). -/
def sortGroups {α : Type} (g : List (String × α)) : List (String × α) :=
  List.insertionSort keyLe g

/-- Keys of a grouped accumulator, in order. -/
def keysOf {α : Type} (g : List (String × α)) : List String := g.map (·.1)

/-- Value a grouped accumulator stores for a key. -/
def lookupG {α : Type} : List (String × α) → String → Option α
  | [], _ => none
  | (k0, v0) :: g, k => if k0 = k then some v0 else lookupG g k

/-- Value a grouped accumulator stores for a key, zero when absent. -/
def valD {α : Type} [Zero α] (g : List (String × α)) (k : String) : α :=
  (lookupG g k).getD 0

/-- Arithmetic sum of `val` over the rows of `l` whose key is `k`. -/
def groupSum {α : Type} [AddCommMonoid α] (key : SaleRow → Option String)
    (val : SaleRow → α) (l : Ledger) (k : String) : α :=
  ((l.filter (fun r => decide (key r = some k))).map val).sum

/-- JSON body of `GET /dashboard`; the two pandas `.to_dict()` results are
modelled as key-value lists. -/
structure DashboardOut where
  total_sales : Nat
  total_profit : ℚ
  by_party : List (String × ℚ)
  by_supplier : List (String × ℚ)
deriving DecidableEq, Repr

/-- `dashboard` (src/main.py lines 252–265): the fixed empty summary for an
empty table, otherwise row count, total profit, and profit grouped by party
and by supplier over all rows (no date filtering). -/
def dashboard (l : Ledger) : DashboardOut :=
  if l.isEmpty then ⟨0, 0, [], []⟩
  else
    ⟨l.length, (l.map (·.profit)).sum,
      sortGroups (buildGroups (fun r => some r.party) (·.profit) l),
      sortGroups (buildGroups (fun r => some r.supplier) (·.profit) l)⟩

/-- One record of the `GET /dashboard-monthly` response. -/
structure MonthlyRow where
  month : String
  client_charge : ℚ
  vat : ℚ
  profit : ℚ
deriving DecidableEq, Repr

/-- `dashboard_monthly` (src/main.py lines 270–289): `[]` for an empty
table; otherwise drop rows whose `sale_date` fails to parse, group the rest
by the `YYYY-MM` month string and sum `client_charge`, `vat` and `profit`
per group, keys ascending. -/
def dashboard_monthly (l : Ledger) : List MonthlyRow :=
  if l.isEmpty then []
  else
    (sortGroups (buildGroups monthKey
        (fun r => (r.client_charge, r.vat, r.profit)) l)).map
      (fun p => ⟨p.1, p.2.1, p.2.2.1, p.2.2.2⟩)

/-- JSON scalar of a request body field. -/
inductive Json where
  | str : String → Json
  | num : ℚ → Json
  | jbool : Bool → Json
  | null : Json
deriving DecidableEq, Repr

/-- Raw request body of `POST /record-sale` before validation: each field of
the pydantic `Sale` model either absent or some JSON scalar. -/
structure RawSale where
  party : Option Json
  supplier : Option Json
  order_no : Option Json
  invoice_no : Option Json
  sale_date : Option Json
  supplier_cost : Option Json
  client_charge : Option Json
deriving DecidableEq, Repr

/-- Unsigned decimal literal: digits with an optional fractional part. -/
def parseUnsignedDecimal (u : List Char) : Option ℚ :=
  match splitOnChar '.' u with
  | [w] => if isDigits w then some (digitsToNat w) else none
  | [w, f] =>
      if isDigits w ∧ isDigits f then
        some ((digitsToNat w : ℚ) + (digitsToNat f : ℚ) / 10 ^ f.length)
      else none
  | _ => none

/-- Numeric string accepted by pydantic float coercion: optional surrounding
whitespace, an optional minus sign, digits, and an optional fractional
part. -/
def parseDecimal (s : String) : Option ℚ :=
  match trimChars s.data with
  | '-' :: u => (parseUnsignedDecimal u).map (fun q => -q)
  | u => parseUnsignedDecimal u

/-- Pydantic validation of a `str` field: present and a JSON string. -/
def coerceStr : Option Json → Option String
  | some (.str s) => some s
  | _ => none

/-- Pydantic validation of a `float` field: present and either a JSON number
or a numeric string; anything else fails coercion. -/
def coerceFloat : Option Json → Option ℚ
  | some (.num q) => some q
  | some (.str s) => parseDecimal s
  | _ => none

/-- Validation of the request body against the pydantic `Sale` model
(src/main.py lines 74–81): every field must be present and coerce to its
declared type, else the request fails validation. -/
def validateSale (raw : RawSale) : Option Sale :=
  match coerceStr raw.party, coerceStr raw.supplier, coerceStr raw.order_no,
      coerceStr raw.invoice_no, coerceStr raw.sale_date,
      coerceFloat raw.supplier_cost, coerceFloat raw.client_charge with
  | some p, some su, some o, some inv, some d, some sc, some cc =>
      some ⟨p, su, o, inv, d, sc, cc⟩
  | _, _, _, _, _, _, _ => none

/-- The `POST /record-sale` endpoint as the framework runs it: validation of
the body against the `Sale` model happens before the handler body, so a
failing payload is answered with a validation error and the handler (and its
INSERT) never executes. -/
def record_sale_endpoint (raw : RawSale) (vat_enabled : Bool) (l : Ledger) :
    Except String SaleResponse × Ledger :=
  match validateSale raw with
  | none => (.error "validation error", l)
  | some sale =>
      let out := record_sale sale vat_enabled l
      (.ok out.1, out.2)

/-- Ids of a projected row list (first cell of each row). -/
def rowIds (rows : List (List Val)) : List Int :=
  rows.filterMap (fun row =>
    match row.head? with
    | some (.i n) => some n
    | _ => none)

/-- Demo payload: the spec scenario `{clientCharge: 1000, supplierCost: 700}`. -/
def demoSale : Sale := ⟨"KONE", "DHL", "ORD-1", "INV-1", "2024-01-15", 700, 1000⟩

/-- Demo row: the persisted result of the scenario sale with VAT enabled. -/
def demoRow1 : SaleRow :=
  ⟨1, "KONE", "DHL", "ORD-1", "INV-1", "2024-01-15", 700, 1000, 150, 1150, 300⟩

/-- Demo row in a different month. -/
def demoRow2 : SaleRow :=
  ⟨2, "OTIS", "JKJ", "ORD-2", "INV-2", "2024-02-03", 50, 100, 15, 115, 50⟩

/-- Demo row whose `sale_date` does not parse as a date. -/
def demoRowBad : SaleRow :=
  ⟨3, "WEG", "MOK", "ORD-3", "INV-3", "not-a-date", 10, 20, 0, 20, 10⟩

/-- One-row demo ledger. -/
def demoLedger1 : Ledger := [demoRow1]

/-- Two-row demo ledger, ids ascending as insertion assigns them. -/
def demoLedger2 : Ledger := [demoRow1, demoRow2]

/-- Demo ledger holding a row with an unparseable date. -/
def demoLedgerBad : Ledger := [demoRow1, demoRowBad]

/-- Monthly aggregate of `demoLedger1`. -/
def demoMonthlyRow : MonthlyRow := ⟨"2024-01", 1000, 150, 300⟩

/-- Raw request whose `supplier_cost` is a non-numeric string. -/
def demoBadRaw : RawSale :=
  ⟨some (.str "KONE"), some (.str "DHL"), some (.str "ORD-1"),
    some (.str "INV-1"), some (.str "2024-01-15"),
    some (.str "seven hundred"), some (.num 1000)⟩

/-! Bridge between the executable character-list order and the `String`
order of the library. -/

theorem charListLt_iff (a b : List Char) : charListLt a b = true ↔ a < b := by
  induction a generalizing b with
  | nil =>
    cases b with
    | nil =>
      simp only [charListLt, Bool.false_eq_true, false_iff]
      intro h
      nomatch h
    | cons y ys =>
      simp only [charListLt, true_iff]
      exact List.Lex.nil
  | cons x xs ih =>
    cases b with
    | nil =>
      simp only [charListLt, Bool.false_eq_true, false_iff]
      intro h
      nomatch h
    | cons y ys =>
      simp only [charListLt]
      by_cases hxy : x < y
      · simp only [hxy, if_true, true_iff]
        exact List.Lex.rel hxy
      · by_cases hyx : y < x
        · simp only [hxy, hyx, if_false, if_true, Bool.false_eq_true, false_iff]
          intro h
          cases h with
          | rel h1 => exact hxy h1
          | cons _ => exact lt_irrefl x hyx
        · have hxyeq : x = y := le_antisymm (not_lt.mp hyx) (not_lt.mp hxy)
          subst hxyeq
          simp only [hxy, hyx, if_false, ih]
          constructor
          · exact fun h => List.Lex.cons h
          · intro h
            cases h with
            | rel h1 => exact absurd h1 hxy
            | cons h3 => exact h3

theorem strLtB_iff (a b : String) : strLtB a b = true ↔ a < b := by
  rw [String.lt_iff_toList_lt]
  exact charListLt_iff a.data b.data

theorem strLeB_iff (a b : String) : strLeB a b = true ↔ a ≤ b := by
  rw [← not_lt, ← strLtB_iff]
  simp [strLeB, strLtB]

/-! Lemmas about the grouped accumulator that `buildGroups` folds up. -/

theorem lookupG_addGroup_self {α : Type} [Add α] (g : List (String × α))
    (k : String) (v : α) :
    lookupG (addGroup k v g) k = some ((lookupG g k).elim v (· + v)) := by
  induction g with
  | nil => simp [addGroup, lookupG]
  | cons p g ih =>
    obtain ⟨k0, v0⟩ := p
    by_cases h : k0 = k
    · subst h
      simp [addGroup, lookupG]
    · simp [addGroup, lookupG, h, ih]

theorem lookupG_addGroup_ne {α : Type} [Add α] (g : List (String × α))
    (k k' : String) (v : α) (h : k' ≠ k) :
    lookupG (addGroup k v g) k' = lookupG g k' := by
  induction g with
  | nil => simp [addGroup, lookupG, Ne.symm h]
  | cons p g ih =>
    obtain ⟨k0, v0⟩ := p
    by_cases h0 : k0 = k
    · subst h0
      simp [addGroup, lookupG, Ne.symm h]
    · simp [addGroup, lookupG, h0, ih]

theorem valD_groupStep {α : Type} [AddCommMonoid α]
    (key : SaleRow → Option String) (val : SaleRow → α)
    (g : List (String × α)) (r : SaleRow) (k : String) :
    valD (groupStep key val g r) k
      = valD g k + (if key r = some k then val r else 0) := by
  unfold groupStep
  cases hk : key r with
  | none => simp [hk]
  | some k0 =>
    by_cases h0 : k0 = k
    · subst h0
      cases hg : lookupG g k0 with
      | none => simp [valD, lookupG_addGroup_self, hg]
      | some w => simp [valD, lookupG_addGroup_self, hg]
    · simp [valD, lookupG_addGroup_ne g k0 k (val r) (Ne.symm h0), h0]

theorem valD_foldl {α : Type} [AddCommMonoid α]
    (key : SaleRow → Option String) (val : SaleRow → α) (k : String) :
    ∀ (l : Ledger) (g : List (String × α)),
      valD (l.foldl (groupStep key val) g) k
        = valD g k + groupSum key val l k := by
  intro l
  induction l with
  | nil => intro g; simp [groupSum]
  | cons r l ih =>
    intro g
    rw [List.foldl_cons, ih, valD_groupStep]
    by_cases h : key r = some k
    · simp [groupSum, List.filter_cons, h, add_assoc]
    · simp [groupSum, List.filter_cons, h]

theorem valD_buildGroups {α : Type} [AddCommMonoid α]
    (key : SaleRow → Option String) (val : SaleRow → α)
    (l : Ledger) (k : String) :
    valD (buildGroups key val l) k = groupSum key val l k := by
  have h := valD_foldl key val k l []
  simpa [buildGroups, valD, lookupG] using h

theorem mem_keysOf_addGroup {α : Type} [Add α] (g : List (String × α))
    (k k' : String) (v : α) :
    k' ∈ keysOf (addGroup k v g) ↔ k' ∈ keysOf g ∨ k' = k := by
  induction g with
  | nil => simp [addGroup, keysOf]
  | cons p g ih =>
    obtain ⟨k0, v0⟩ := p
    by_cases h : k0 = k
    · subst h
      simp [addGroup, keysOf]
      tauto
    · simp [addGroup, keysOf, h] at ih ⊢
      tauto

theorem mem_keysOf_foldl {α : Type} [AddCommMonoid α]
    (key : SaleRow → Option String) (val : SaleRow → α) (k : String) :
    ∀ (l : Ledger) (g : List (String × α)),
      k ∈ keysOf (l.foldl (groupStep key val) g)
        ↔ k ∈ keysOf g ∨ ∃ r ∈ l, key r = some k := by
  intro l
  induction l with
  | nil => intro g; simp
  | cons r l ih =>
    intro g
    rw [List.foldl_cons, ih]
    unfold groupStep
    cases hk : key r with
    | none => simp [hk]
    | some k0 =>
      rw [mem_keysOf_addGroup]
      by_cases h0 : k0 = k
      · subst h0
        simp [hk]
      · simp [hk, h0]
        tauto

theorem mem_keysOf_buildGroups {α : Type} [AddCommMonoid α]
    (key : SaleRow → Option String) (val : SaleRow → α)
    (l : Ledger) (k : String) :
    k ∈ keysOf (buildGroups key val l) ↔ ∃ r ∈ l, key r = some k := by
  have h := mem_keysOf_foldl key val k l []
  simpa [buildGroups, keysOf] using h

theorem keysOf_addGroup {α : Type} [Add α] (g : List (String × α))
    (k : String) (v : α) :
    keysOf (addGroup k v g)
      = if k ∈ keysOf g then keysOf g else keysOf g ++ [k] := by
  induction g with
  | nil => simp [addGroup, keysOf]
  | cons p g ih =>
    obtain ⟨k0, v0⟩ := p
    by_cases h : k0 = k
    · subst h
      simp [addGroup, keysOf]
    · simp only [addGroup, if_neg h, keysOf, List.map_cons]
      simp only [keysOf] at ih
      rw [ih]
      by_cases hm : k ∈ List.map (fun x => x.1) g
      · simp [hm, Ne.symm h]
      · simp [hm, Ne.symm h]

theorem nodup_keysOf_foldl {α : Type} [AddCommMonoid α]
    (key : SaleRow → Option String) (val : SaleRow → α) :
    ∀ (l : Ledger) (g : List (String × α)),
      (keysOf g).Nodup → (keysOf (l.foldl (groupStep key val) g)).Nodup := by
  intro l
  induction l with
  | nil => intro g h; simpa using h
  | cons r l ih =>
    intro g h
    rw [List.foldl_cons]
    apply ih
    unfold groupStep
    cases hk : key r with
    | none => exact h
    | some k0 =>
      rw [keysOf_addGroup]
      by_cases hm : k0 ∈ keysOf g
      · simpa [hm] using h
      · simp [hm, List.nodup_append, h]

theorem nodup_keysOf_buildGroups {α : Type} [AddCommMonoid α]
    (key : SaleRow → Option String) (val : SaleRow → α) (l : Ledger) :
    (keysOf (buildGroups key val l)).Nodup :=
  nodup_keysOf_foldl key val l [] (by simp [keysOf])

theorem mem_iff_lookupG {α : Type} (g : List (String × α)) (k : String)
    (v : α) :
    (keysOf g).Nodup → ((k, v) ∈ g ↔ lookupG g k = some v) := by
  induction g with
  | nil => intro; simp [lookupG]
  | cons p g ih =>
    obtain ⟨k0, v0⟩ := p
    intro hnd
    simp only [keysOf, List.map_cons, List.nodup_cons] at hnd
    by_cases h : k0 = k
    · subst h
      constructor
      · intro hmem
        rcases List.mem_cons.mp hmem with heq | hmem2
        · have hv : v = v0 := congrArg Prod.snd heq
          simp [lookupG, hv]
        · exact absurd (List.mem_map_of_mem (·.1) hmem2) hnd.1
      · intro hsome
        have hv : v0 = v := by simpa [lookupG] using hsome
        subst hv
        exact List.mem_cons_self _ _
    · constructor
      · intro hmem
        rcases List.mem_cons.mp hmem with heq | hmem2
        · exact absurd (congrArg Prod.fst heq).symm h
        · simpa [lookupG, h] using (ih hnd.2).mp hmem2
      · intro hl
        have hg := (ih hnd.2).mpr (by simpa [lookupG, h] using hl)
        exact List.mem_cons_of_mem _ hg

theorem sortGroups_sorted {α : Type} (g : List (String × α)) :
    (sortGroups g).Sorted keyLe := by
  haveI ht : IsTotal (String × α) keyLe := ⟨fun a b => by
    rcases le_total a.1 b.1 with h | h
    · exact Or.inl ((strLeB_iff _ _).mpr h)
    · exact Or.inr ((strLeB_iff _ _).mpr h)⟩
  haveI htr : IsTrans (String × α) keyLe := ⟨fun a b c h1 h2 =>
    (strLeB_iff _ _).mpr
      (le_trans ((strLeB_iff _ _).mp h1) ((strLeB_iff _ _).mp h2))⟩
  exact List.sorted_insertionSort keyLe g

theorem sortGroups_perm {α : Type} (g : List (String × α)) :
    List.Perm (sortGroups g) g :=
  List.perm_insertionSort keyLe g

theorem mem_sortGroups {α : Type} (g : List (String × α)) (x : String × α) :
    x ∈ sortGroups g ↔ x ∈ g :=
  (sortGroups_perm g).mem_iff

theorem sortGroups_keys_sorted {α : Type} (g : List (String × α))
    (hnd : (keysOf g).Nodup) :
    (keysOf (sortGroups g)).Sorted (· < ·) := by
  have hle : (keysOf (sortGroups g)).Sorted (· ≤ ·) := by
    unfold keysOf
    exact List.Pairwise.map (f := fun x : String × α => x.1)
      (fun a b h => (strLeB_iff a.1 b.1).mp h) (sortGroups_sorted g)
  have hnds : (keysOf (sortGroups g)).Nodup := by
    have hp : List.Perm (keysOf (sortGroups g)) (keysOf g) := by
      unfold keysOf
      exact (sortGroups_perm g).map (fun x => x.1)
    exact hp.nodup_iff.mpr hnd
  exact (List.Pairwise.and hle hnds).imp
    (fun h => lt_of_le_of_ne h.1 h.2)

theorem fst_list_sum (L : List (ℚ × ℚ × ℚ)) :
    L.sum.1 = (L.map (·.1)).sum := by
  induction L with
  | nil => simp
  | cons a L ih => simp [ih]

theorem snd_fst_list_sum (L : List (ℚ × ℚ × ℚ)) :
    L.sum.2.1 = (L.map (·.2.1)).sum := by
  induction L with
  | nil => simp
  | cons a L ih => simp [ih]

theorem snd_snd_list_sum (L : List (ℚ × ℚ × ℚ)) :
    L.sum.2.2 = (L.map (·.2.2)).sum := by
  induction L with
  | nil => simp
  | cons a L ih => simp [ih]

theorem mem_dashboard_monthly (l : Ledger) (e : MonthlyRow) :
    e ∈ dashboard_monthly l ↔
      (e.month, (e.client_charge, e.vat, e.profit)) ∈
        buildGroups monthKey (fun r => (r.client_charge, r.vat, r.profit)) l := by
  unfold dashboard_monthly
  by_cases h : l.isEmpty
  · have hl : l = [] := List.isEmpty_iff.mp h
    subst hl
    simp [buildGroups]
  · simp only [if_neg h, List.mem_map]
    constructor
    · rintro ⟨p, hp, rfl⟩
      obtain ⟨p1, p2, p3, p4⟩ := p
      exact (mem_sortGroups _ _).mp hp
    · intro hm
      refine ⟨(e.month, (e.client_charge, e.vat, e.profit)),
        (mem_sortGroups _ _).mpr hm, ?_⟩
      obtain ⟨m, cc, v, pr⟩ := e
      rfl

theorem round2_intCast (n : ℤ) : round2 ((n : ℚ)) = n := by
  have h100 : ((n : ℚ) * 100) = (((100 * n : ℤ)) : ℚ) := by push_cast; ring
  unfold round2 roundHalfEven
  rw [h100, Int.floor_intCast]
  rw [if_pos (by simp)]
  push_cast
  field_simp

theorem round2_mul_100_int (x : ℚ) : ∃ a : ℤ, round2 x * 100 = (a : ℚ) :=
  ⟨roundHalfEven (x * 100), by
    unfold round2
    exact div_mul_cancel₀ _ (by norm_num)⟩

/-- C1: `record_sale` computes the derived fields by the spec formulas with
fuelCharge = 0: vat = client_charge · 0.15 when vat_enabled else 0,
total_invoice = client_charge + vat, profit = client_charge − supplier_cost;
the scenario clientCharge=1000, supplierCost=700, vatEnabled=true returns
vat=150.00, totalInvoice=1150.00, profit=300.00, and with vat_enabled=false
the derived vat is 0 and total_invoice equals client_charge. -/
theorem record_sale_derives_spec_formulas (s : Sale) (ve : Bool) (l : Ledger) :
    ∃ row : SaleRow,
      (record_sale s ve l).2 = l ++ [row]
      ∧ row.vat = (if ve then s.client_charge * VAT_RATE else 0)
      ∧ row.total_invoice = s.client_charge + row.vat
      ∧ row.profit = s.client_charge - s.supplier_cost
      ∧ (ve = false → row.vat = 0 ∧ row.total_invoice = s.client_charge)
      ∧ (s.client_charge = 1000 → s.supplier_cost = 700 → ve = true →
          (record_sale s ve l).1
            = ⟨150, 1150, 300, "Sale recorded successfully"⟩) := by
  refine ⟨⟨nextId l, s.party, s.supplier, s.order_no, s.invoice_no,
      s.sale_date, s.supplier_cost, s.client_charge,
      (if ve then s.client_charge * VAT_RATE else 0),
      s.client_charge + (if ve then s.client_charge * VAT_RATE else 0),
      s.client_charge - s.supplier_cost⟩,
    rfl, rfl, rfl, rfl, ?_, ?_⟩
  · intro h
    subst h
    simp
  · intro h1 h2 h3
    subst h3
    have e1 : round2 (150 : ℚ) = 150 := by
      have h := round2_intCast 150
      push_cast at h
      exact h
    have e2 : round2 (1150 : ℚ) = 1150 := by
      have h := round2_intCast 1150
      push_cast at h
      exact h
    have e3 : round2 (300 : ℚ) = 300 := by
      have h := round2_intCast 300
      push_cast at h
      exact h
    rw [show (record_sale s true l).1
        = ⟨round2 (s.client_charge * VAT_RATE),
            round2 (s.client_charge + s.client_charge * VAT_RATE),
            round2 (s.client_charge - s.supplier_cost),
            "Sale recorded successfully"⟩ from rfl]
    rw [h1, h2]
    simp only [SaleResponse.mk.injEq]
    norm_num [VAT_RATE, e1, e2, e3]

/-- C7: the values `record_sale` returns to the caller are the derived
vat, total_invoice and profit rounded to 2 decimal places (their product
with 100 is an integer), while the row persisted in the ledger carries the
unrounded derivation results. -/
theorem record_sale_rounds_response_only (s : Sale) (ve : Bool) (l : Ledger) :
    ∃ row : SaleRow,
      record_sale s ve l
        = (⟨round2 row.vat, round2 row.total_invoice, round2 row.profit,
            "Sale recorded successfully"⟩, l ++ [row])
      ∧ row.vat = (if ve then s.client_charge * VAT_RATE else 0)
      ∧ row.total_invoice = s.client_charge + row.vat
      ∧ row.profit = s.client_charge - s.supplier_cost
      ∧ (∃ a : ℤ, round2 row.vat * 100 = (a : ℚ))
      ∧ (∃ b : ℤ, round2 row.total_invoice * 100 = (b : ℚ))
      ∧ (∃ c : ℤ, round2 row.profit * 100 = (c : ℚ)) :=
  ⟨⟨nextId l, s.party, s.supplier, s.order_no, s.invoice_no,
      s.sale_date, s.supplier_cost, s.client_charge,
      (if ve then s.client_charge * VAT_RATE else 0),
      s.client_charge + (if ve then s.client_charge * VAT_RATE else 0),
      s.client_charge - s.supplier_cost⟩,
    rfl, rfl, rfl, rfl,
    round2_mul_100_int _, round2_mul_100_int _, round2_mul_100_int _⟩

/-- C8: the listing projection returns for every record exactly the fields
id, party, supplier, order_no, invoice_no, sale_date, client_charge,
total_invoice, profit in that order; the selected column list omits
supplier_cost and vat. -/
theorem get_sales_summary_projection (l : Ledger) :
    get_sales l = l.map (fun r =>
      [Val.i r.id, Val.s r.party, Val.s r.supplier, Val.s r.order_no,
       Val.s r.invoice_no, Val.s r.sale_date, Val.q r.client_charge,
       Val.q r.total_invoice, Val.q r.profit])
    ∧ getSalesColumns.length = 9
    ∧ "supplier_cost" ∉ getSalesColumns
    ∧ "vat" ∉ getSalesColumns := by
  refine ⟨rfl, rfl, by decide, by decide⟩

theorem le_foldr_max (l : List Nat) : ∀ x ∈ l, x ≤ l.foldr max 0 := by
  induction l with
  | nil => simp
  | cons a l ih =>
    intro x hx
    rcases List.mem_cons.mp hx with rfl | hx
    · exact le_max_left _ _
    · exact le_trans (ih x hx) (le_max_right _ _)

theorem id_lt_nextId (l : Ledger) (r : SaleRow) (hr : r ∈ l) :
    r.id < nextId l :=
  Nat.lt_succ_of_le (le_foldr_max _ _ (List.mem_map_of_mem (·.id) hr))

/-- C6 counterexample: on the two-row ledger the ids returned by
`get_sales` are in ascending order, not descending-by-id as the claim
states. -/
theorem get_sales_not_descending :
    ¬ (rowIds (get_sales demoLedger2)).Sorted (· ≥ ·) := by
  decide

/-- C6 amended: `get_sales` runs a SELECT with no ORDER BY, so rows come
back in stored (insertion) order; since ids are assigned in increasing
order, the listing is ascending by id — the spec's suggested
descending-by-id default is not implemented. -/
theorem get_sales_insertion_order (l : Ledger)
    (hasc : (l.map (·.id)).Sorted (· < ·)) :
    rowIds (get_sales l) = l.map (fun r => (r.id : Int))
    ∧ (rowIds (get_sales l)).Sorted (· < ·)
    ∧ ∀ (s : Sale) (ve : Bool),
        (((record_sale s ve l).2).map (·.id)).Sorted (· < ·) := by
  have hids : rowIds (get_sales l) = l.map (fun r => (r.id : Int)) := by
    unfold rowIds get_sales
    rw [List.filterMap_map]
    exact congrFun (List.filterMap_eq_map (fun r : SaleRow => (r.id : Int))) l
  refine ⟨hids, ?_, ?_⟩
  · rw [hids]
    have h2 : List.Pairwise (· < ·)
        (List.map (fun n : Nat => (n : Int)) (l.map (·.id))) :=
      List.Pairwise.map (fun n : Nat => (n : Int))
        (fun a b h => Int.ofNat_lt.mpr h) hasc
    rw [List.map_map] at h2
    exact h2
  · intro s ve
    rw [show ((record_sale s ve l).2) = l ++ [⟨nextId l, s.party, s.supplier,
        s.order_no, s.invoice_no, s.sale_date, s.supplier_cost,
        s.client_charge, (if ve then s.client_charge * VAT_RATE else 0),
        s.client_charge + (if ve then s.client_charge * VAT_RATE else 0),
        s.client_charge - s.supplier_cost⟩] from rfl]
    rw [List.map_append]
    refine List.pairwise_append.mpr ⟨hasc, List.pairwise_singleton _ _, ?_⟩
    intro a ha b hb
    simp only [List.map_cons, List.map_nil, List.mem_singleton] at hb
    subst hb
    obtain ⟨r, hr, rfl⟩ := List.mem_map.mp ha
    exact id_lt_nextId l r hr

/-- C5: the invoice projection answers a missing id with the
"Sale not found" error and leaves the ledger unchanged; for every present
id it produces a document. -/
theorem invoice_not_found_spec (sale_id : Nat) (l : Ledger) :
    ((∀ r ∈ l, r.id ≠ sale_id) →
      invoice sale_id l = (Except.error "Sale not found", l))
    ∧ (∀ r ∈ l, r.id = sale_id →
        (∃ d, (invoice sale_id l).1 = Except.ok d)
        ∧ (invoice sale_id l).2 = l) := by
  constructor
  · intro h
    have hf : l.find? (fun r => r.id == sale_id) = none := by
      rw [List.find?_eq_none]
      intro x hx
      simpa using h x hx
    unfold invoice
    rw [hf]
  · intro r hr hid
    have hs : (l.find? (fun r => r.id == sale_id)).isSome := by
      rw [List.find?_isSome]
      exact ⟨r, hr, by simpa using hid⟩
    obtain ⟨row, hrow⟩ := Option.isSome_iff_exists.mp hs
    unfold invoice
    rw [hrow]
    exact ⟨⟨_, rfl⟩, rfl⟩

theorem foldl_groupStep_filter {α : Type} [Add α]
    (key : SaleRow → Option String) (val : SaleRow → α) :
    ∀ (l : Ledger) (g : List (String × α)),
      l.foldl (groupStep key val) g
        = (l.filter (fun x => (key x).isSome)).foldl (groupStep key val) g := by
  intro l
  induction l with
  | nil => intro g; rfl
  | cons r l ih =>
    intro g
    rw [List.foldl_cons, List.filter_cons]
    cases hk : key r with
    | none => simp [hk, groupStep, ih]
    | some k0 => simp [hk, groupStep, ih]

theorem buildGroups_filter {α : Type} [Add α]
    (key : SaleRow → Option String) (val : SaleRow → α) (l : Ledger) :
    buildGroups key val l
      = buildGroups key val (l.filter (fun x => (key x).isSome)) :=
  foldl_groupStep_filter key val l []

/-- C3: a record whose sale_date does not parse is silently excluded from
the monthly aggregation — the result is the same as aggregating only the
parseable records, and no error is produced — while the record still
appears in the full listing. -/
theorem unparseable_date_excluded (l : Ledger) (r : SaleRow)
    (hr : r ∈ l) (hbad : parseDate r.sale_date = none) :
    dashboard_monthly l
      = dashboard_monthly (l.filter (fun x => (monthKey x).isSome))
    ∧ r ∉ l.filter (fun x => (monthKey x).isSome)
    ∧ selectRow getSalesColumns r ∈ get_sales l := by
  refine ⟨?_, ?_, List.mem_map_of_mem (selectRow getSalesColumns) hr⟩
  · have hb : buildGroups monthKey
        (fun x => (x.client_charge, x.vat, x.profit)) l
        = buildGroups monthKey (fun x => (x.client_charge, x.vat, x.profit))
          (l.filter (fun x => (monthKey x).isSome)) :=
      buildGroups_filter _ _ l
    unfold dashboard_monthly
    by_cases h : l.isEmpty
    · have hl : l = [] := List.isEmpty_iff.mp h
      subst hl
      rfl
    · rw [if_neg h]
      by_cases h2 : (l.filter (fun x => (monthKey x).isSome)).isEmpty
      · rw [if_pos h2]
        have hfe : l.filter (fun x => (monthKey x).isSome) = [] :=
          List.isEmpty_iff.mp h2
        rw [hb, hfe]
        rfl
      · rw [if_neg h2, hb]
  · intro hmem
    have := (List.mem_filter.mp hmem).2
    simp [monthKey, hbad] at this

theorem validateSale_none_of_field_none (raw : RawSale) :
    (coerceStr raw.party = none ∨ coerceStr raw.supplier = none
      ∨ coerceStr raw.order_no = none ∨ coerceStr raw.invoice_no = none
      ∨ coerceStr raw.sale_date = none ∨ coerceFloat raw.supplier_cost = none
      ∨ coerceFloat raw.client_charge = none) →
    validateSale raw = none := by
  intro h
  unfold validateSale
  rcases h1 : coerceStr raw.party with _ | p <;>
    rcases h2 : coerceStr raw.supplier with _ | su <;>
      rcases h3 : coerceStr raw.order_no with _ | o <;>
        rcases h4 : coerceStr raw.invoice_no with _ | inv <;>
          rcases h5 : coerceStr raw.sale_date with _ | d <;>
            rcases h6 : coerceFloat raw.supplier_cost with _ | sc <;>
              rcases h7 : coerceFloat raw.client_charge with _ | cc <;>
                simp_all

/-- C4: a create request whose monetary fields fail numeric coercion, or
whose fields are missing or mistyped, is answered with a validation error
before the handler runs, and the ledger is unchanged. -/
theorem record_sale_rejects_invalid (raw : RawSale) (ve : Bool) (l : Ledger) :
    (validateSale raw = none →
      record_sale_endpoint raw ve l = (Except.error "validation error", l))
    ∧ (coerceFloat raw.supplier_cost = none
        ∨ coerceFloat raw.client_charge = none
        ∨ coerceStr raw.party = none ∨ coerceStr raw.supplier = none
        ∨ coerceStr raw.order_no = none ∨ coerceStr raw.invoice_no = none
        ∨ coerceStr raw.sale_date = none →
      record_sale_endpoint raw ve l = (Except.error "validation error", l)) := by
  have hmain : validateSale raw = none →
      record_sale_endpoint raw ve l = (Except.error "validation error", l) := by
    intro h
    unfold record_sale_endpoint
    rw [h]
  refine ⟨hmain, fun h => hmain (validateSale_none_of_field_none raw ?_)⟩
  tauto

theorem lookupG_isSome_iff {α : Type} (g : List (String × α)) (k : String) :
    (lookupG g k).isSome ↔ k ∈ keysOf g := by
  induction g with
  | nil => simp [lookupG, keysOf]
  | cons p g ih =>
    obtain ⟨k0, v0⟩ := p
    by_cases h : k0 = k
    · subst h
      simp [lookupG, keysOf]
    · simp [lookupG, keysOf, h, ih, Ne.symm h]

/-- C2: the monthly aggregation keys parseable records by their `YYYY-MM`
month string; each output entry's client_charge, vat and profit are the
arithmetic sums over that month's records; output is strictly ascending by
month string; every represented month yields an entry; the empty ledger
yields the empty sequence. -/
theorem dashboard_monthly_spec (l : Ledger) :
    dashboard_monthly ([] : Ledger) = []
    ∧ ((dashboard_monthly l).map (·.month)).Sorted (· < ·)
    ∧ (∀ e, e ∈ dashboard_monthly l →
        (∃ r ∈ l, monthKey r = some e.month)
        ∧ e.client_charge = ((l.filter
            (fun r => decide (monthKey r = some e.month))).map
              (·.client_charge)).sum
        ∧ e.vat = ((l.filter
            (fun r => decide (monthKey r = some e.month))).map (·.vat)).sum
        ∧ e.profit = ((l.filter
            (fun r => decide (monthKey r = some e.month))).map
              (·.profit)).sum)
    ∧ (∀ m, (∃ r ∈ l, monthKey r = some m) →
        ∃ e, e ∈ dashboard_monthly l ∧ e.month = m) := by
  refine ⟨rfl, ?_, ?_, ?_⟩
  · unfold dashboard_monthly
    by_cases h : l.isEmpty
    · rw [if_pos h]
      exact List.sorted_nil
    · rw [if_neg h, List.map_map]
      have hs := sortGroups_keys_sorted _
        (nodup_keysOf_buildGroups monthKey
          (fun r => (r.client_charge, r.vat, r.profit)) l)
      unfold keysOf at hs
      exact hs
  · intro e he
    have hmem := (mem_dashboard_monthly l e).mp he
    have hnd := nodup_keysOf_buildGroups monthKey
      (fun r => (r.client_charge, r.vat, r.profit)) l
    have hlk : lookupG (buildGroups monthKey
        (fun r => (r.client_charge, r.vat, r.profit)) l) e.month
        = some (e.client_charge, e.vat, e.profit) :=
      (mem_iff_lookupG _ _ _ hnd).mp hmem
    have hex : ∃ r ∈ l, monthKey r = some e.month := by
      have hk : e.month ∈ keysOf (buildGroups monthKey
          (fun r => (r.client_charge, r.vat, r.profit)) l) :=
        List.mem_map_of_mem (·.1) hmem
      exact (mem_keysOf_buildGroups _ _ _ _).mp hk
    have hval : groupSum monthKey
        (fun r => (r.client_charge, r.vat, r.profit)) l e.month
        = (e.client_charge, e.vat, e.profit) := by
      rw [← valD_buildGroups]
      simp [valD, hlk]
    unfold groupSum at hval
    refine ⟨hex, ?_, ?_, ?_⟩
    · have h1 := congrArg Prod.fst hval
      rw [fst_list_sum, List.map_map] at h1
      exact h1.symm
    · have h1 := congrArg (fun p => p.2.1) hval
      simp only at h1
      rw [snd_fst_list_sum, List.map_map] at h1
      exact h1.symm
    · have h1 := congrArg (fun p => p.2.2) hval
      simp only at h1
      rw [snd_snd_list_sum, List.map_map] at h1
      exact h1.symm
  · intro m hm
    have hk : m ∈ keysOf (buildGroups monthKey
        (fun r => (r.client_charge, r.vat, r.profit)) l) :=
      (mem_keysOf_buildGroups _ _ _ _).mpr hm
    obtain ⟨p, hp, hp1⟩ := List.mem_map.mp hk
    obtain ⟨k0, v1, v2, v3⟩ := p
    refine ⟨⟨k0, v1, v2, v3⟩, ?_, hp1⟩
    exact (mem_dashboard_monthly l ⟨k0, v1, v2, v3⟩).mpr hp

theorem mem_groupProfit (keyf : SaleRow → String) (l : Ledger)
    (k : String) (v : ℚ) :
    (k, v) ∈ sortGroups (buildGroups (fun r => some (keyf r)) (·.profit) l)
      ↔ ((∃ r ∈ l, keyf r = k)
          ∧ v = ((l.filter (fun r => decide (keyf r = k))).map
              (·.profit)).sum) := by
  have hnd := nodup_keysOf_buildGroups (fun r => some (keyf r)) (·.profit) l
  have hfil : l.filter (fun r => decide (some (keyf r) = some k))
      = l.filter (fun r => decide (keyf r = k)) := by
    apply List.filter_congr
    intro x hx
    simp
  rw [mem_sortGroups, mem_iff_lookupG _ _ _ hnd]
  constructor
  · intro hlk
    have hmemk : k ∈ keysOf (buildGroups (fun r => some (keyf r))
        (·.profit) l) :=
      (lookupG_isSome_iff _ _).mp (by rw [hlk]; rfl)
    have hex := (mem_keysOf_buildGroups _ _ _ _).mp hmemk
    refine ⟨by simpa using hex, ?_⟩
    have hval : groupSum (fun r => some (keyf r)) (·.profit) l k = v := by
      rw [← valD_buildGroups]
      simp [valD, hlk]
    unfold groupSum at hval
    rw [hfil] at hval
    exact hval.symm
  · rintro ⟨⟨r, hr, hkr⟩, hv⟩
    have hmemk : k ∈ keysOf (buildGroups (fun r => some (keyf r))
        (·.profit) l) :=
      (mem_keysOf_buildGroups _ _ _ _).mpr ⟨r, hr, by simp [hkr]⟩
    obtain ⟨w, hw⟩ := Option.isSome_iff_exists.mp
      ((lookupG_isSome_iff _ _).mpr hmemk)
    have hval : groupSum (fun r => some (keyf r)) (·.profit) l k = w := by
      rw [← valD_buildGroups]
      simp [valD, hw]
    unfold groupSum at hval
    rw [hfil] at hval
    rw [hv, hval]
    exact hw

/-- C10: the dashboard returns the fixed empty summary for an empty ledger;
otherwise total_sales is the row count, total_profit the sum of all profit
values, and by_party / by_supplier map each distinct party / supplier value
verbatim to the summed profit of its rows, with no date filtering. -/
theorem dashboard_spec (l : Ledger) :
    dashboard ([] : Ledger) = ⟨0, 0, [], []⟩
    ∧ (l ≠ [] →
        (dashboard l).total_sales = l.length
        ∧ (dashboard l).total_profit = (l.map (·.profit)).sum)
    ∧ (∀ k v, (k, v) ∈ (dashboard l).by_party ↔
        ((∃ r ∈ l, r.party = k)
          ∧ v = ((l.filter (fun r => decide (r.party = k))).map
              (·.profit)).sum))
    ∧ (∀ k v, (k, v) ∈ (dashboard l).by_supplier ↔
        ((∃ r ∈ l, r.supplier = k)
          ∧ v = ((l.filter (fun r => decide (r.supplier = k))).map
              (·.profit)).sum)) := by
  refine ⟨rfl, ?_, ?_, ?_⟩
  · intro h
    unfold dashboard
    rw [if_neg (by simpa using h)]
    exact ⟨rfl, rfl⟩
  · intro k v
    unfold dashboard
    by_cases h : l.isEmpty
    · have hl : l = [] := List.isEmpty_iff.mp h
      subst hl
      simp
    · rw [if_neg h]
      exact mem_groupProfit (·.party) l k v
  · intro k v
    unfold dashboard
    by_cases h : l.isEmpty
    · have hl : l = [] := List.isEmpty_iff.mp h
      subst hl
      simp
    · rw [if_neg h]
      exact mem_groupProfit (·.supplier) l k v

/-- C9 counterexample: the seventh worksheet column is in fact aligned:
its header is "Supplier Cost" and the seventh cell of each appended data
row holds the record's supplier_cost. This refutes the claim that header
and data disagree from the seventh column onward. -/
theorem export_excel_seventh_column_aligned :
    headerMatchesColumn 6 = true
    ∧ excelHeaders.get? 6 = some "Supplier Cost"
    ∧ (selectRow tableColumns demoRow1).get? 6 = some (Val.q 700)
    ∧ demoRow1.supplier_cost = 700 :=
  ⟨by decide, rfl, rfl, rfl⟩

/-- C9 amended: the export header row has 9 labels and each data row all 11
table columns, and the header labels stop matching the data columns from
the EIGHTH column onward (the seventh, "Supplier Cost", still matches):
under "Total Invoice" sits client_charge, under "Profit" sits vat, and
total_invoice and profit spill into headerless columns 10 and 11. -/
theorem export_excel_header_misalignment (l : Ledger) (r : SaleRow)
    (hr : r ∈ l) :
    excelHeaders.length = 9
    ∧ (selectRow tableColumns r).length = 11
    ∧ (∀ k, k < 7 → headerMatchesColumn k = true)
    ∧ (∀ k, 7 ≤ k → headerMatchesColumn k = false)
    ∧ (selectRow tableColumns r).get? 6 = some (Val.q r.supplier_cost)
    ∧ (selectRow tableColumns r).get? 7 = some (Val.q r.client_charge)
    ∧ (selectRow tableColumns r).get? 8 = some (Val.q r.vat)
    ∧ (selectRow tableColumns r).get? 9 = some (Val.q r.total_invoice)
    ∧ (selectRow tableColumns r).get? 10 = some (Val.q r.profit)
    ∧ selectRow tableColumns r ∈ export_excel_rows l := by
  refine ⟨rfl, rfl, ?_, ?_, rfl, rfl, rfl, rfl, rfl,
    List.mem_map_of_mem _ hr⟩
  · intro k hk
    interval_cases k <;> decide
  · intro k hk
    obtain ⟨n, rfl⟩ : ∃ n, k = n + 7 := ⟨k - 7, by omega⟩
    rcases n with _ | _ | m
    · decide
    · decide
    · rfl

/-- C1 witness: the scenario sale at VAT enabled returns exactly
vat 150, total 1150, profit 300. -/
theorem record_sale_derives_spec_formulas_witness :
    (record_sale demoSale true []).1
      = ⟨150, 1150, 300, "Sale recorded successfully"⟩ := by
  obtain ⟨row, -, -, -, -, -, hs⟩ :=
    record_sale_derives_spec_formulas demoSale true []
  exact hs rfl rfl rfl

/-- C2 witness: on the one-row demo ledger the months are sorted and the
2024-01 entry's profit is the group sum. -/
theorem dashboard_monthly_spec_witness :
    ((dashboard_monthly demoLedger1).map (·.month)).Sorted (· < ·)
    ∧ demoMonthlyRow.profit
      = ((demoLedger1.filter (fun r =>
          decide (monthKey r = some demoMonthlyRow.month))).map
            (·.profit)).sum := by
  refine ⟨(dashboard_monthly_spec demoLedger1).2.1, ?_⟩
  exact ((dashboard_monthly_spec demoLedger1).2.2.1 demoMonthlyRow
    (by decide)).2.2.2

/-- C3 witness: the demo row with the unparseable date is dropped from the
monthly aggregation but still listed. -/
theorem unparseable_date_excluded_witness :
    dashboard_monthly demoLedgerBad
      = dashboard_monthly
          (demoLedgerBad.filter (fun x => (monthKey x).isSome))
    ∧ demoRowBad ∉ demoLedgerBad.filter (fun x => (monthKey x).isSome)
    ∧ selectRow getSalesColumns demoRowBad ∈ get_sales demoLedgerBad :=
  unparseable_date_excluded demoLedgerBad demoRowBad (by decide) (by decide)

/-- C4 witness: the request whose supplier_cost is a non-numeric string is
rejected and the empty ledger stays empty. -/
theorem record_sale_rejects_invalid_witness :
    record_sale_endpoint demoBadRaw true []
      = (Except.error "validation error", []) :=
  (record_sale_rejects_invalid demoBadRaw true []).1 (by decide)

/-- C5 witness: id 7 is absent from the demo ledger and yields the error;
id 1 is present and yields a document. -/
theorem invoice_not_found_spec_witness :
    invoice 7 demoLedger1 = (Except.error "Sale not found", demoLedger1)
    ∧ ((∃ d, (invoice 1 demoLedger1).1 = Except.ok d)
        ∧ (invoice 1 demoLedger1).2 = demoLedger1) := by
  refine ⟨(invoice_not_found_spec 7 demoLedger1).1 (by decide), ?_⟩
  exact (invoice_not_found_spec 1 demoLedger1).2 demoRow1 (by decide)
    (by decide)

/-- C6 witness: on the two-row demo ledger the listing comes back ascending
by id. -/
theorem get_sales_insertion_order_witness :
    rowIds (get_sales demoLedger2)
      = demoLedger2.map (fun r => (r.id : Int))
    ∧ (rowIds (get_sales demoLedger2)).Sorted (· < ·) := by
  have h := get_sales_insertion_order demoLedger2 (by decide)
  exact ⟨h.1, h.2.1⟩

/-- C9 witness: in the demo row the cell under the eighth header
"Total Invoice" holds client_charge, and no header from the eighth on
matches its column. -/
theorem export_excel_header_misalignment_witness :
    (selectRow tableColumns demoRow1).get? 7
      = some (Val.q demoRow1.client_charge)
    ∧ (∀ k, 7 ≤ k → headerMatchesColumn k = false) := by
  have h := export_excel_header_misalignment demoLedger1 demoRow1 (by decide)
  exact ⟨h.2.2.2.2.2.1, h.2.2.2.1⟩

/-- C10 witness: the one-row demo ledger's dashboard counts one sale and
maps KONE to its profit. -/
theorem dashboard_spec_witness :
    (dashboard demoLedger1).total_sales = demoLedger1.length
    ∧ ("KONE", demoRow1.profit) ∈ (dashboard demoLedger1).by_party := by
  have h := dashboard_spec demoLedger1
  refine ⟨(h.2.1 (by decide)).1, ?_⟩
  refine (h.2.2.1 "KONE" demoRow1.profit).mpr
    ⟨⟨demoRow1, by decide, rfl⟩, ?_⟩
  simp [demoLedger1, demoRow1]

end MokSales
